import Mathlib

/-!
Shallow embedding of the rendering/interaction engine of PDF_GalaxAI
(frontend/src/rendering/GalaxyRenderer.tsx), together with proofs of the
specified properties: edge-buffer construction, edge color policy,
instanced node updates, ray picking, the camera fly-to animation, the
requestAnimationFrame scheduling discipline, and the dispose path.

Numbers are modelled as rationals (reals only where the source calls the
transcendental `Math.sin`).  Fallible operations (DOM `removeChild`,
array indexing) are modelled with `Option`/error results.
-/

namespace GalaxAI

/-- 3D position, as stored in `Paper.pos : [number, number, number]`. -/
structure Vec3 where
  x : ℚ
  y : ℚ
  z : ℚ
  deriving DecidableEq, Repr

def Vec3.add (a b : Vec3) : Vec3 :=
  ⟨a.x + b.x, a.y + b.y, a.z + b.z⟩

/-- `Vector3.lerpVectors a b k`: componentwise `a + (b - a) * k`. -/
def Vec3.lerp (a b : Vec3) (k : ℚ) : Vec3 :=
  ⟨a.x + (b.x - a.x) * k, a.y + (b.y - a.y) * k, a.z + (b.z - a.z) * k⟩

/-- Edge type tag: the `type?: 'intra' | 'bridge'` field of `Edge`. -/
inductive EdgeType where
  | intra : EdgeType
  | bridge : EdgeType
  deriving DecidableEq, Repr

/-- A node of the graph snapshot (the fields of `Paper` the renderer reads:
`id`, `pos`, `color`, `size`). -/
structure Paper where
  id : String
  pos : Vec3
  color : String
  size : ℚ
  deriving DecidableEq, Repr

/-- An edge of the graph snapshot (`source`, `target`, `weight`, optional `type`). -/
structure Edge where
  source : String
  target : String
  weight : ℚ
  type : Option EdgeType
  deriving DecidableEq, Repr

/-- An RGB color with components in the unit interval, as `THREE.Color`. -/
structure Color where
  r : ℚ
  g : ℚ
  b : ℚ
  deriving DecidableEq, Repr

/-- `THREE.Color.multiplyScalar s`: multiplies every component by `s`. -/
def Color.multiplyScalar (c : Color) (s : ℚ) : Color :=
  ⟨c.r * s, c.g * s, c.b * s⟩

/-- The RGB value of the hex literal `'#f472b6'` used for bridge edges. -/
def bridgeBase : Color := ⟨244 / 255, 114 / 255, 182 / 255⟩

/-- The RGB value of the hex literal `'#60a5fa'` used for non-bridge edges. -/
def defaultBase : Color := ⟨96 / 255, 165 / 255, 250 / 255⟩

/-- `const base = e.type === 'bridge' ? '#f472b6' : '#60a5fa'`. -/
def edgeBase (e : Edge) : Color :=
  if e.type = some EdgeType.bridge then bridgeBase else defaultBase

/-- The brightness scalar `Math.min(1, 0.35 + e.weight * 0.12)`. -/
def edgeBrightness (w : ℚ) : ℚ :=
  min 1 (0.35 + w * 0.12)

/-- `new THREE.Color(base).multiplyScalar(Math.min(1, 0.35 + e.weight * 0.12))`. -/
def edgeColor (e : Edge) : Color :=
  (edgeBase e).multiplyScalar (edgeBrightness e.weight)

/-- The `idToPos` map: `for (const p of papers) idToPos.set(p.id, p.pos)`.
A later `set` with the same key overwrites, so lookup finds the last
occurrence of the id in the list. -/
def idToPos (papers : List Paper) (id : String) : Option Vec3 :=
  (papers.reverse.find? (fun p => p.id = id)).map (fun p => p.pos)

/-- The six coordinates pushed for one edge:
`edgePositions.push(a[0], a[1], a[2], b[0], b[1], b[2])`.
Only evaluated on edges whose endpoints are both in the map; the default
is never reached there. -/
def posSeg (papers : List Paper) (e : Edge) : List ℚ :=
  let a := (idToPos papers e.source).getD ⟨0, 0, 0⟩
  let b := (idToPos papers e.target).getD ⟨0, 0, 0⟩
  [a.x, a.y, a.z, b.x, b.y, b.z]

/-- The six color components pushed for one edge:
`edgeColors.push(c.r, c.g, c.b, c.r, c.g, c.b)`. -/
def colSeg (e : Edge) : List ℚ :=
  let c := edgeColor e
  [c.r, c.g, c.b, c.r, c.g, c.b]

/-- Whether an edge is kept by the build loop: both endpoint ids resolve in
`idToPos` (`if (!a || !b) continue`). -/
def keepEdge (papers : List Paper) (e : Edge) : Bool :=
  (idToPos papers e.source).isSome && (idToPos papers e.target).isSome

/-- The edge-buffer build loop of `GalaxyRenderer`: iterates the edge list,
skips edges with a missing endpoint, and appends six position coordinates
and six color components for each kept edge. -/
def buildEdgeBuffers (papers : List Paper) (edges : List Edge) : List ℚ × List ℚ :=
  edges.foldl
    (fun acc e =>
      match idToPos papers e.source, idToPos papers e.target with
      | some _, some _ => (acc.1 ++ posSeg papers e, acc.2 ++ colSeg e)
      | _, _ => acc)
    ([], [])

/-- Current camera state: eye position and orbit target
(`camera.position`, `controls.target`). -/
structure CamState where
  pos : Vec3
  target : Vec3
  deriving DecidableEq, Repr

/-- The record captured by one `flyTo` call: start/end eye position,
start/end orbit target, start timestamp and duration. -/
structure Anim where
  startCam : Vec3
  endCam : Vec3
  startTgt : Vec3
  endTgt : Vec3
  start : ℚ
  duration : ℚ
  deriving DecidableEq, Repr

/-- The `flyTo` end-state setup: `startCam`/`startTgt` are clones of the
current camera position and orbit target, `endTgt = target`,
`endCam = target + (0, 0, 6)`, `durationMs = 550`, `start = performance.now()`. -/
def mkFlyTo (cam : CamState) (target : Vec3) (now : ℚ) : Anim :=
  { startCam := cam.pos
    endCam := target.add ⟨0, 0, 6⟩
    startTgt := cam.target
    endTgt := target
    start := now
    duration := 550 }

/-- The per-tick parameter `t = Math.min(1, (now - start) / durationMs)`. -/
def tickParam (a : Anim) (now : ℚ) : ℚ :=
  min 1 ((now - a.start) / a.duration)

/-- The easing curve `t < 0.5 ? 2 * t * t : 1 - Math.pow(-2 * t + 2, 2) / 2`. -/
def easeInOut (t : ℚ) : ℚ :=
  if t < 1 / 2 then 2 * t * t else 1 - (-2 * t + 2) ^ 2 / 2

/-- One `step` tick of a fly-to animation: lerps camera position and orbit
target by the eased parameter.  `lerpVectors` assigns absolutely, so the
incoming camera state is ignored by the write. -/
def stepCamera (now : ℚ) (_cam : CamState) (a : Anim) : CamState :=
  let k := easeInOut (tickParam a now)
  { pos := Vec3.lerp a.startCam a.endCam k
    target := Vec3.lerp a.startTgt a.endTgt k }

/-- `if (t < 1) requestAnimationFrame(step)`: whether the chain stays alive. -/
def stepReschedules (a : Anim) (now : ℚ) : Bool :=
  tickParam a now < 1

/-- The camera plus every pending fly-to step chain, in rAF registration
order. -/
structure RendererState where
  cam : CamState
  anims : List Anim
  deriving DecidableEq, Repr

/-- One animation frame: every pending step chain runs in registration
order, each writing the camera; a chain whose `t` reached 1 does not
reschedule itself. -/
def runFrame (now : ℚ) (s : RendererState) : RendererState :=
  { cam := s.anims.foldl (stepCamera now) s.cam
    anims := s.anims.filter (fun a => stepReschedules a now) }

/-- A call to `flyTo(target)`: builds an animation from the current camera
state and registers its step chain.  The source keeps no handle to any
previous chain and cancels nothing, so the new animation is appended to the
pending set. -/
def callFlyTo (now : ℚ) (target : Vec3) (s : RendererState) : RendererState :=
  { s with anims := s.anims ++ [mkFlyTo s.cam target now] }

/-- The kinds of frame callbacks this view schedules. -/
inductive FrameCB where
  | renderLoop : FrameCB
  | flyStep : FrameCB
  deriving DecidableEq, Repr

/-- The browser's animation-frame queue: pending callbacks with their
handles, in registration order, and the next fresh handle. -/
structure RafState where
  pending : List (ℕ × FrameCB)
  nextHandle : ℕ
  deriving DecidableEq, Repr

/-- `requestAnimationFrame(cb)`: registers the callback and returns its
handle. -/
def requestFrame (cb : FrameCB) (s : RafState) : RafState × ℕ :=
  (⟨s.pending ++ [(s.nextHandle, cb)], s.nextHandle + 1⟩, s.nextHandle)

/-- `cancelAnimationFrame(h)`: removes the callback registered under `h`. -/
def cancelFrame (h : ℕ) (s : RafState) : RafState :=
  { s with pending := s.pending.filter (fun e => e.1 ≠ h) }

/-- The view's scheduling-relevant state: the `raf` variable holding the
render loop's latest handle, and the frame queue. -/
structure ViewSched where
  raf : ℕ
  sched : RafState
  deriving DecidableEq, Repr

/-- Mounting starts the render loop: `raf = requestAnimationFrame(animate)`
stores the handle in `raf`. -/
def mountView (s : RafState) : ViewSched :=
  let r := requestFrame FrameCB.renderLoop s
  { raf := r.2, sched := r.1 }

/-- `flyTo`'s trailing `requestAnimationFrame(step)`: the returned handle is
discarded — the source retains no reference to the step chain. -/
def flyToSchedule (v : ViewSched) : ViewSched :=
  { v with sched := (requestFrame FrameCB.flyStep v.sched).1 }

/-- The cleanup's only scheduling action: `cancelAnimationFrame(raf)`. -/
def disposeSched (v : ViewSched) : ViewSched :=
  { v with sched := cancelFrame v.raf v.sched }

/-- The resources touched by the effect cleanup: the mount container's DOM
children, the renderer's canvas element, and a count of how many times the
geometry/material/mesh/renderer release calls have run. -/
structure ViewResources where
  children : List ℕ
  domElement : ℕ
  releaseRounds : ℕ
  deriving DecidableEq, Repr

/-- The effect cleanup: removes listeners, cancels the render loop, runs the
eight `dispose()` release calls (counted by `releaseRounds`), then
`mountRef.current?.removeChild(renderer.domElement)` — which raises a DOM
`NotFoundError` when the canvas is not currently a child of the container.
Returns the state after the call together with the raised error, if any. -/
def disposeView (s : ViewResources) : ViewResources × Option String :=
  let s1 : ViewResources := { s with releaseRounds := s.releaseRounds + 1 }
  if s1.domElement ∈ s1.children then
    ({ s1 with children := s1.children.erase s1.domElement }, none)
  else
    (s1, some "NotFoundError")

/-- Abstract per-instance ray test: for each batch slot, the nearest hit
distance of the cast ray against that instance, or `none`.  The raycaster
inspects exactly the slots `0 .. count - 1` of the instanced mesh. -/
def raycastInstances (hit : ℕ → Option ℚ) (count : ℕ) : List (ℕ × ℚ) :=
  (List.range count).filterMap (fun i => (hit i).map (fun d => (i, d)))

/-- Insertion into a list kept sorted by ascending hit distance. -/
def insertByDist (x : ℕ × ℚ) : List (ℕ × ℚ) → List (ℕ × ℚ)
  | [] => [x]
  | y :: ys => if x.2 ≤ y.2 then x :: y :: ys else y :: insertByDist x ys

/-- Sorting by ascending hit distance, as `intersectObject` sorts its
result array. -/
def sortByDist : List (ℕ × ℚ) → List (ℕ × ℚ)
  | [] => []
  | x :: xs => insertByDist x (sortByDist xs)

/-- `raycaster.intersectObject(mesh)`: the instance hits sorted by ascending
distance. -/
def intersectObject (hit : ℕ → Option ℚ) (count : ℕ) : List (ℕ × ℚ) :=
  sortByDist (raycastInstances hit count)

/-- `onPointerDown` after the ray is set from the pointer coordinates: when
the intersection list is nonempty, takes `intersects[0].instanceId` and
passes `papers[id]` to `onSelect`.  Returns the argument handed to the
selection callback, or `none` when the callback does not fire. -/
def handlePointerDown (hit : ℕ → Option ℚ) (papers : List Paper) : Option Paper :=
  match intersectObject hit papers.length with
  | [] => none
  | (i, _) :: _ => papers.get? i

/-- The per-instance state written by one iteration of the `animate` loop's
update: position, uniform scale, color. -/
structure InstanceUpdate where
  pos : Vec3
  scale : ℝ
  color : String

/-- One iteration of the per-instance update in `animate`, at time
`t = performance.now() / 1000` for instance slot `i` holding paper `p`:
`s = isHi ? 1 + 0.35 * Math.sin(t * 5 + i * 0.2) : 1`, position set to
`p.pos`, color set to `'#fbbf24'` when highlighted, else `p.color`. -/
noncomputable def instanceUpdate (highlights : List String) (t : ℝ) (i : ℕ)
    (p : Paper) : InstanceUpdate :=
  if p.id ∈ highlights then
    { pos := p.pos
      scale := 1 + 0.35 * Real.sin (t * 5 + (i : ℝ) * 0.2)
      color := "#fbbf24" }
  else
    { pos := p.pos, scale := 1, color := p.color }

/-- Sample camera state used to instantiate universally quantified
theorems on concrete inputs. -/
def camW : CamState := ⟨⟨0, 0, 15⟩, ⟨0, 0, 0⟩⟩

/-- Sample fly-to animation: focus on the node at `(5, 0, 0)` issued at
time 0. -/
def animW : Anim := mkFlyTo camW ⟨5, 0, 0⟩ 0

/-- Sample node at the origin. -/
def paperW : Paper := ⟨"n1", ⟨0, 0, 0⟩, "#60a5fa", 1⟩

/-- Sample node at `(5, 0, 0)`. -/
def paperW2 : Paper := ⟨"n2", ⟨5, 0, 0⟩, "#a78bfa", 2⟩

/-- Sample edge of weight 1 between the two sample nodes. -/
def edgeW : Edge := ⟨"n1", "n2", 1, none⟩

/-- Sample ray test hitting only instance slot 0, at distance 1. -/
def hitW : ℕ → Option ℚ := fun i => if i = 0 then some 1 else none

/-- Sample mid-flight renderer state: focus on `(1, 0, 0)` issued at time 0,
one frame run at time 100 (inside the 550 ms flight). -/
def sW : RendererState := runFrame 100 (callFlyTo 0 ⟨1, 0, 0⟩ ⟨camW, []⟩)

/-- Presence of a node id in the node list is equivalent to a successful
`idToPos` lookup. -/
theorem idToPos_isSome_iff (papers : List Paper) (id : String) :
    (idToPos papers id).isSome ↔ ∃ p ∈ papers, p.id = id := by
  simp [idToPos, List.find?_isSome]

/-- Unfolding the edge-buffer fold over an arbitrary accumulator. -/
theorem buildEdgeBuffers_fold_eq (papers : List Paper) (edges : List Edge)
    (acc : List ℚ × List ℚ) :
    edges.foldl
      (fun acc e =>
        match idToPos papers e.source, idToPos papers e.target with
        | some _, some _ => (acc.1 ++ posSeg papers e, acc.2 ++ colSeg e)
        | _, _ => acc)
      acc
    = (acc.1 ++ (edges.filter (keepEdge papers)).flatMap (posSeg papers),
       acc.2 ++ (edges.filter (keepEdge papers)).flatMap colSeg) := by
  induction edges generalizing acc with
  | nil => simp
  | cons e es ih =>
    simp only [List.foldl_cons, List.filter_cons]
    rcases hs : idToPos papers e.source with _ | a <;>
      rcases ht : idToPos papers e.target with _ | b <;>
      simp [keepEdge, hs, ht, ih, List.append_assoc]

/-- Claim C1: the edge geometry builder emits one segment (six position
coordinates, six color components) for exactly those edges whose source
and target ids are both present in the node list, in order; an edge with a
missing endpoint contributes nothing to either buffer.  The builder is a
total function, so it cannot throw, on empty lists included. -/
theorem edge_buffer_skips_missing_endpoints (papers : List Paper) (edges : List Edge) :
    buildEdgeBuffers papers edges
      = ((edges.filter (keepEdge papers)).flatMap (posSeg papers),
         (edges.filter (keepEdge papers)).flatMap colSeg)
    ∧ (∀ e : Edge, keepEdge papers e = true ↔
        ((∃ p ∈ papers, p.id = e.source) ∧ (∃ p ∈ papers, p.id = e.target)))
    ∧ (buildEdgeBuffers papers edges).1.length
        = 6 * (edges.filter (keepEdge papers)).length := by
  have hbuild : buildEdgeBuffers papers edges
      = ((edges.filter (keepEdge papers)).flatMap (posSeg papers),
         (edges.filter (keepEdge papers)).flatMap colSeg) := by
    simpa using buildEdgeBuffers_fold_eq papers edges ([], [])
  refine ⟨hbuild, ?_, ?_⟩
  · intro e
    constructor
    · intro h
      have hs := (Bool.and_eq_true _ _).mp h
      exact ⟨(idToPos_isSome_iff papers e.source).mp hs.1,
        (idToPos_isSome_iff papers e.target).mp hs.2⟩
    · intro h
      exact (Bool.and_eq_true _ _).mpr
        ⟨(idToPos_isSome_iff papers e.source).mpr h.1,
         (idToPos_isSome_iff papers e.target).mpr h.2⟩
  · rw [hbuild]
    induction edges.filter (keepEdge papers) with
    | nil => simp
    | cons e es ih =>
      simp only [List.flatMap_cons, List.length_append, List.length_cons, ih]
      simp [posSeg]
      omega

/-- Claim C9: every emitted edge color is the base hue chosen by the edge
type (`bridge` versus default) multiplied componentwise by the brightness
scalar `min(1, 0.35 + weight * 0.12)`, and for every non-negative weight
that scalar lies in `[0.35, 1]`: it never reaches zero and never
exceeds 1. -/
theorem edge_color_brightness_bounds (e : Edge) (h : 0 ≤ e.weight) :
    edgeColor e = (edgeBase e).multiplyScalar (edgeBrightness e.weight)
    ∧ (e.type = some EdgeType.bridge → edgeBase e = bridgeBase)
    ∧ (e.type ≠ some EdgeType.bridge → edgeBase e = defaultBase)
    ∧ 0.35 ≤ edgeBrightness e.weight
    ∧ edgeBrightness e.weight ≤ 1 := by
  refine ⟨rfl, ?_, ?_, ?_, ?_⟩
  · intro ht; simp [edgeBase, ht]
  · intro ht; simp [edgeBase, ht]
  · refine le_min (by norm_num) ?_
    nlinarith
  · exact min_le_left 1 _

/-- Witness for C9 at the sample edge of weight 1. -/
theorem edge_color_brightness_bounds_witness :
    edgeColor edgeW = (edgeBase edgeW).multiplyScalar (edgeBrightness edgeW.weight)
    ∧ (edgeW.type = some EdgeType.bridge → edgeBase edgeW = bridgeBase)
    ∧ (edgeW.type ≠ some EdgeType.bridge → edgeBase edgeW = defaultBase)
    ∧ 0.35 ≤ edgeBrightness edgeW.weight
    ∧ edgeBrightness edgeW.weight ≤ 1 :=
  edge_color_brightness_bounds edgeW (by norm_num [edgeW])

/-- Claim C6: the per-instance update at time `t` keeps the node's position
unchanged; a highlighted node gets the highlight color `'#fbbf24'` and the
pulsing scale `1 + 0.35 * sin(5 * t + 0.2 * i)` with the phase offset set
by the instance index; a non-highlighted node keeps its own color and
scale exactly 1; and the scale always lies in `[0.65, 1.35]` — bounded for
arbitrarily large finite timestamps, no explosion. -/
theorem instance_update_highlight_pulse (highlights : List String) (t : ℝ)
    (i : ℕ) (p : Paper) :
    (instanceUpdate highlights t i p).pos = p.pos
    ∧ (p.id ∈ highlights →
        (instanceUpdate highlights t i p).color = "#fbbf24"
        ∧ (instanceUpdate highlights t i p).scale
            = 1 + 0.35 * Real.sin (t * 5 + (i : ℝ) * 0.2))
    ∧ (p.id ∉ highlights →
        (instanceUpdate highlights t i p).color = p.color
        ∧ (instanceUpdate highlights t i p).scale = 1)
    ∧ 0.65 ≤ (instanceUpdate highlights t i p).scale
    ∧ (instanceUpdate highlights t i p).scale ≤ 1.35 := by
  by_cases hmem : p.id ∈ highlights
  · have hs1 := Real.neg_one_le_sin (t * 5 + (i : ℝ) * 0.2)
    have hs2 := Real.sin_le_one (t * 5 + (i : ℝ) * 0.2)
    refine ⟨by simp [instanceUpdate, hmem], fun _ => ⟨by simp [instanceUpdate, hmem],
      by simp [instanceUpdate, hmem]⟩, fun hc => absurd hmem hc, ?_, ?_⟩
    · simp only [instanceUpdate, hmem, if_pos]
      nlinarith
    · simp only [instanceUpdate, hmem, if_pos]
      nlinarith
  · refine ⟨by simp [instanceUpdate, hmem], fun hc => absurd hc hmem,
      fun _ => ⟨by simp [instanceUpdate, hmem], by simp [instanceUpdate, hmem]⟩, ?_, ?_⟩
    · simp only [instanceUpdate, hmem, if_neg, not_false_iff]
      norm_num
    · simp only [instanceUpdate, hmem, if_neg, not_false_iff]
      norm_num

/-- Witness for C6: sample node, highlighted, instance slot 0, time 0. -/
theorem instance_update_highlight_pulse_witness :
    (instanceUpdate ["n1"] 0 0 paperW).pos = paperW.pos
    ∧ (paperW.id ∈ ["n1"] →
        (instanceUpdate ["n1"] 0 0 paperW).color = "#fbbf24"
        ∧ (instanceUpdate ["n1"] 0 0 paperW).scale
            = 1 + 0.35 * Real.sin (0 * 5 + ((0 : ℕ) : ℝ) * 0.2))
    ∧ (paperW.id ∉ ["n1"] →
        (instanceUpdate ["n1"] 0 0 paperW).color = paperW.color
        ∧ (instanceUpdate ["n1"] 0 0 paperW).scale = 1)
    ∧ 0.65 ≤ (instanceUpdate ["n1"] 0 0 paperW).scale
    ∧ (instanceUpdate ["n1"] 0 0 paperW).scale ≤ 1.35 :=
  instance_update_highlight_pulse ["n1"] 0 0 paperW

/-- Lerp at parameter 1 lands exactly on the end vector. -/
theorem Vec3.lerp_one (a b : Vec3) : Vec3.lerp a b 1 = b := by
  cases b
  simp only [Vec3.lerp, Vec3.mk.injEq]
  refine ⟨by ring, by ring, by ring⟩

/-- The easing curve maps 1 to 1. -/
theorem easeInOut_one : easeInOut 1 = 1 := by
  norm_num [easeInOut]

/-- Under a positive duration, the tick parameter reaches 1 exactly when
the elapsed time has reached the duration. -/
theorem tickParam_eq_one_iff (a : Anim) (now : ℚ) (hdur : 0 < a.duration) :
    tickParam a now = 1 ↔ a.start + a.duration ≤ now := by
  unfold tickParam
  rw [min_eq_left_iff, one_le_div hdur]
  constructor
  · intro h; linarith
  · intro h; linarith

/-- Claim C7: on each tick with `start ≤ now` and a positive duration, the
interpolation parameter `min(1, (now-start)/duration)` equals
`clamp((now-start)/duration, 0, 1)`; the camera write lerps both the eye
position and the orbit target from start to end by `easeInOut` of that
parameter (the curve `t < 0.5 ? 2t^2 : 1 - (-2t+2)^2/2`); the parameter
reaches 1 exactly when the duration has elapsed, and then the camera is
exactly at the recorded end state and the step does not reschedule — the
animation stops. -/
theorem fly_step_easing_and_settle (a : Anim) (now : ℚ) (cam : CamState)
    (hdur : 0 < a.duration) (hstart : a.start ≤ now) :
    tickParam a now = max 0 (min 1 ((now - a.start) / a.duration))
    ∧ stepCamera now cam a
        = { pos := Vec3.lerp a.startCam a.endCam (easeInOut (tickParam a now))
            target := Vec3.lerp a.startTgt a.endTgt (easeInOut (tickParam a now)) }
    ∧ (tickParam a now = 1 ↔ a.start + a.duration ≤ now)
    ∧ (a.start + a.duration ≤ now →
        stepCamera now cam a = { pos := a.endCam, target := a.endTgt }
        ∧ stepReschedules a now = false) := by
  have hx : 0 ≤ (now - a.start) / a.duration :=
    div_nonneg (by linarith) hdur.le
  refine ⟨?_, rfl, tickParam_eq_one_iff a now hdur, ?_⟩
  · rw [max_eq_right]
    · rfl
    · exact le_min (by norm_num) hx
  · intro hdone
    have h1 : tickParam a now = 1 := (tickParam_eq_one_iff a now hdur).mpr hdone
    constructor
    · simp [stepCamera, h1, easeInOut_one, Vec3.lerp_one]
    · simp [stepReschedules, h1]

/-- Witness for C7: the sample animation, evaluated at `now = 600`, past
its 550 ms duration. -/
theorem fly_step_easing_and_settle_witness :
    tickParam animW 600 = max 0 (min 1 ((600 - animW.start) / animW.duration))
    ∧ stepCamera 600 camW animW
        = { pos := Vec3.lerp animW.startCam animW.endCam (easeInOut (tickParam animW 600))
            target := Vec3.lerp animW.startTgt animW.endTgt (easeInOut (tickParam animW 600)) }
    ∧ (tickParam animW 600 = 1 ↔ animW.start + animW.duration ≤ 600)
    ∧ (animW.start + animW.duration ≤ 600 →
        stepCamera 600 camW animW = { pos := animW.endCam, target := animW.endTgt }
        ∧ stepReschedules animW 600 = false) :=
  fly_step_easing_and_settle animW 600 camW
    (by norm_num [animW, mkFlyTo]) (by norm_num [animW, mkFlyTo])

/-- Counterexample to claim C8 as stated: the recorded end eye position is
not scaled by the node's size.  `flyTo` receives only the node's position
and applies the fixed offset `(0, 0, 6)`, so two nodes with the same
position and different sizes yield identical end eye positions. -/
theorem focus_offset_ignores_size_cex :
    (mkFlyTo camW paperW2.pos 0).endCam
      = (mkFlyTo camW ({ paperW2 with size := 100 } : Paper).pos 0).endCam
    ∧ paperW2.size ≠ ({ paperW2 with size := 100 } : Paper).size
    ∧ (mkFlyTo camW paperW2.pos 0).endCam = paperW2.pos.add ⟨0, 0, 6⟩ := by
  refine ⟨rfl, by norm_num [paperW2], rfl⟩

/-- Amended C8: for every focus request on a node, the recorded end orbit
target is the node's position, the end eye position is the node's position
plus the fixed standoff offset `(0, 0, 6)` along the view axis —
independent of the node's size — and the duration is the fixed constant
550 ms, inside the 550–600 range. -/
theorem focus_end_state (cam : CamState) (p : Paper) (now : ℚ) :
    (mkFlyTo cam p.pos now).endTgt = p.pos
    ∧ (mkFlyTo cam p.pos now).endCam = p.pos.add ⟨0, 0, 6⟩
    ∧ (mkFlyTo cam p.pos now).duration = 550
    ∧ 550 ≤ (mkFlyTo cam p.pos now).duration
    ∧ (mkFlyTo cam p.pos now).duration ≤ 600
    ∧ ∀ q : Paper, q.pos = p.pos → mkFlyTo cam q.pos now = mkFlyTo cam p.pos now := by
  refine ⟨rfl, rfl, rfl, by norm_num [mkFlyTo], by norm_num [mkFlyTo], ?_⟩
  intro q hq
  rw [hq]

/-- Witness for the amended C8 at the sample camera and node. -/
theorem focus_end_state_witness :
    (mkFlyTo camW paperW2.pos 0).endTgt = paperW2.pos
    ∧ (mkFlyTo camW paperW2.pos 0).endCam = paperW2.pos.add ⟨0, 0, 6⟩
    ∧ (mkFlyTo camW paperW2.pos 0).duration = 550
    ∧ 550 ≤ (mkFlyTo camW paperW2.pos 0).duration
    ∧ (mkFlyTo camW paperW2.pos 0).duration ≤ 600
    ∧ ∀ q : Paper, q.pos = paperW2.pos → mkFlyTo camW q.pos 0 = mkFlyTo camW paperW2.pos 0 :=
  focus_end_state camW paperW2 0

/-- Counterexample to claim C2 as stated: a focus request issued while an
earlier fly-to is still in flight does not replace the in-flight
animation.  The source keeps no handle to the first step chain and cancels
nothing, so after the second call two step chains are pending and both
write the camera on every subsequent frame — not at most one. -/
theorem focus_does_not_replace_cex :
    (callFlyTo 100 ⟨5, 0, 0⟩
        (runFrame 100 (callFlyTo 0 ⟨1, 0, 0⟩ ⟨camW, []⟩))).anims.length = 2 := by
  have h : stepReschedules (mkFlyTo camW ⟨1, 0, 0⟩ 0) 100 = true := by
    simp only [stepReschedules, tickParam, mkFlyTo, decide_eq_true_eq]
    rw [min_def]
    norm_num
  simp [callFlyTo, runFrame, h]

/-- Amended C2: the in-flight chain is not cancelled (both chains stay
scheduled), but the new animation starts from the current interpolated
camera/target, is registered last, and overwrites the camera on every
frame — so the camera after each frame equals the new animation's
interpolated state, and once the new animation's 550 ms duration has
elapsed it is exactly B's end state. -/
theorem focus_new_request_drives_camera (s : RendererState) (target : Vec3)
    (tB now : ℚ) :
    (mkFlyTo s.cam target tB).startCam = s.cam.pos
    ∧ (mkFlyTo s.cam target tB).startTgt = s.cam.target
    ∧ (runFrame now (callFlyTo tB target s)).cam
        = stepCamera now s.cam (mkFlyTo s.cam target tB)
    ∧ (tB + 550 ≤ now →
        (runFrame now (callFlyTo tB target s)).cam
          = { pos := target.add ⟨0, 0, 6⟩, target := target }) := by
  have hfold : (runFrame now (callFlyTo tB target s)).cam
      = stepCamera now s.cam (mkFlyTo s.cam target tB) := by
    simp [runFrame, callFlyTo, List.foldl_append, stepCamera]
  refine ⟨rfl, rfl, hfold, ?_⟩
  intro hdone
  have hdur : (0 : ℚ) < (mkFlyTo s.cam target tB).duration := by
    norm_num [mkFlyTo]
  have h1 : tickParam (mkFlyTo s.cam target tB) now = 1 := by
    refine (tickParam_eq_one_iff _ now hdur).mpr ?_
    simp only [mkFlyTo]
    linarith
  rw [hfold]
  have h2 : easeInOut (tickParam (mkFlyTo s.cam target tB) now) = 1 := by
    rw [h1, easeInOut_one]
  simp only [stepCamera]
  rw [h2]
  simp [Vec3.lerp_one, mkFlyTo]

/-- Witness for the amended C2: focus on `(5, 0, 0)` at time 100 from the
sample mid-flight state, observed at time 700, past the duration. -/
theorem focus_new_request_drives_camera_witness :
    (mkFlyTo sW.cam ⟨5, 0, 0⟩ 100).startCam = sW.cam.pos
    ∧ (mkFlyTo sW.cam ⟨5, 0, 0⟩ 100).startTgt = sW.cam.target
    ∧ (runFrame 700 (callFlyTo 100 ⟨5, 0, 0⟩ sW)).cam
        = stepCamera 700 sW.cam (mkFlyTo sW.cam ⟨5, 0, 0⟩ 100)
    ∧ ((100 : ℚ) + 550 ≤ 700 →
        (runFrame 700 (callFlyTo 100 ⟨5, 0, 0⟩ sW)).cam
          = { pos := Vec3.add ⟨5, 0, 0⟩ ⟨0, 0, 6⟩, target := ⟨5, 0, 0⟩ }) :=
  focus_new_request_drives_camera sW ⟨5, 0, 0⟩ 100 700

/-- Claim C3 is violated by the code: the first cleanup call succeeds; a
second consecutive call re-runs every release (the release calls run
twice, not once) and then raises `NotFoundError` from
`removeChild(renderer.domElement)`, since the canvas is no longer a child
of the container. -/
theorem dispose_twice_raises :
    (disposeView ⟨[7], 7, 0⟩).2 = none
    ∧ (disposeView ⟨[7], 7, 0⟩).1.releaseRounds = 1
    ∧ (disposeView (disposeView ⟨[7], 7, 0⟩).1).2 = some "NotFoundError"
    ∧ (disposeView (disposeView ⟨[7], 7, 0⟩).1).1.releaseRounds = 2 := by
  decide

/-- Claim C4 is violated by the code: after mount, a fly-to issued
mid-flight, and dispose, the cleanup's `cancelAnimationFrame(raf)` removes
the render loop's pending callback, but the fly-to step chain's handle was
discarded at registration and is never cancelled — its callback is still
pending after teardown. -/
theorem dispose_leaves_fly_step_pending :
    ((disposeSched (flyToSchedule (mountView ⟨[], 0⟩))).sched.pending.filter
        (fun e => e.2 = FrameCB.flyStep)).length = 1
    ∧ ((disposeSched (flyToSchedule (mountView ⟨[], 0⟩))).sched.pending.filter
        (fun e => e.2 = FrameCB.renderLoop)).length = 0 := by
  decide

/-- Insertion by distance never produces the empty list. -/
theorem insertByDist_ne_nil (x : ℕ × ℚ) (l : List (ℕ × ℚ)) :
    insertByDist x l ≠ [] := by
  cases l with
  | nil => simp [insertByDist]
  | cons y ys =>
    simp only [insertByDist]
    split <;> simp

/-- Membership through insertion by distance. -/
theorem mem_insertByDist (x y : ℕ × ℚ) (l : List (ℕ × ℚ)) :
    y ∈ insertByDist x l ↔ y = x ∨ y ∈ l := by
  induction l with
  | nil => simp [insertByDist]
  | cons z zs ih =>
    simp only [insertByDist]
    split
    · simp [List.mem_cons]
    · simp only [List.mem_cons, ih]
      tauto

/-- Sorting by distance preserves membership. -/
theorem mem_sortByDist (y : ℕ × ℚ) (l : List (ℕ × ℚ)) :
    y ∈ sortByDist l ↔ y ∈ l := by
  induction l with
  | nil => simp [sortByDist]
  | cons x xs ih => simp [sortByDist, mem_insertByDist, ih]

/-- Sorting by distance yields the empty list only on the empty list. -/
theorem sortByDist_eq_nil_iff (l : List (ℕ × ℚ)) :
    sortByDist l = [] ↔ l = [] := by
  cases l with
  | nil => simp [sortByDist]
  | cons x xs => simp [sortByDist, insertByDist_ne_nil]

/-- The head of the distance-sorted list has minimal distance. -/
theorem sortByDist_head_le (l : List (ℕ × ℚ)) (y : ℕ × ℚ) (ys : List (ℕ × ℚ))
    (h : sortByDist l = y :: ys) : ∀ x ∈ l, y.2 ≤ x.2 := by
  induction l generalizing y ys with
  | nil => simp [sortByDist] at h
  | cons z zs ih =>
    simp only [sortByDist] at h
    rcases hs : sortByDist zs with _ | ⟨w, ws⟩
    · rw [hs] at h
      simp only [insertByDist] at h
      have hzs : zs = [] := (sortByDist_eq_nil_iff zs).mp hs
      injection h with h1 h2
      subst hzs
      intro x hx
      simp only [List.mem_cons, List.not_mem_nil, or_false] at hx
      subst hx
      rw [← h1]
    · rw [hs] at h
      simp only [insertByDist] at h
      split at h
      · rename_i hzw
        injection h with h1 h2
        intro x hx
        rcases List.mem_cons.mp hx with hxz | hxzs
        · subst hxz; rw [← h1]
        · rw [← h1]
          exact le_trans hzw (ih w ws hs x hxzs)
      · rename_i hzw
        injection h with h1 h2
        intro x hx
        rcases List.mem_cons.mp hx with hxz | hxzs
        · subst hxz
          rw [← h1]
          exact le_of_lt (lt_of_not_le hzw)
        · rw [← h1]
          exact ih w ws hs x hxzs

/-- Membership in the raw instance-hit list. -/
theorem mem_raycastInstances (hit : ℕ → Option ℚ) (count : ℕ) (i : ℕ) (d : ℚ) :
    (i, d) ∈ raycastInstances hit count ↔ i < count ∧ hit i = some d := by
  simp only [raycastInstances, List.mem_filterMap, List.mem_range,
    Option.map_eq_some', Prod.mk.injEq]
  constructor
  · rintro ⟨a, ha, d', hd', rfl, rfl⟩
    exact ⟨ha, hd'⟩
  · rintro ⟨hi, hd⟩
    exact ⟨i, hi, d, hd, rfl, rfl⟩

/-- When no instance is hit, the raw hit list is empty. -/
theorem raycastInstances_eq_nil (hit : ℕ → Option ℚ) (count : ℕ)
    (h : ∀ i, i < count → hit i = none) :
    raycastInstances hit count = [] := by
  simp only [raycastInstances, List.filterMap_eq_nil_iff]
  intro i hi
  rw [h i (List.mem_range.mp hi)]
  rfl

/-- Claim C5: when the cast ray intersects no node instance the pick result
is `none` (no selection callback fires), including on the empty node list —
a total function, no exception; when an instance is intersected, the
nearest intersected instance index resolves through the instance index
table to exactly that node, which is the argument passed to the selection
callback. -/
theorem pick_resolves_nearest (hit : ℕ → Option ℚ) (papers : List Paper) :
    ((∀ i, i < papers.length → hit i = none) → handlePointerDown hit papers = none)
    ∧ (papers = [] → handlePointerDown hit papers = none)
    ∧ ∀ p, handlePointerDown hit papers = some p →
        ∃ i d, i < papers.length ∧ hit i = some d ∧ papers.get? i = some p
          ∧ ∀ j d', j < papers.length → hit j = some d' → d ≤ d' := by
  refine ⟨?_, ?_, ?_⟩
  · intro h
    have hray : raycastInstances hit papers.length = [] :=
      raycastInstances_eq_nil hit papers.length h
    simp [handlePointerDown, intersectObject, hray, sortByDist]
  · intro h
    subst h
    simp [handlePointerDown, intersectObject, raycastInstances, sortByDist]
  · intro p hp
    unfold handlePointerDown at hp
    rcases hmatch : intersectObject hit papers.length with _ | ⟨⟨i, d⟩, rest⟩
    · rw [hmatch] at hp
      simp at hp
    · rw [hmatch] at hp
      simp only at hp
      unfold intersectObject at hmatch
      have hmem : (i, d) ∈ raycastInstances hit papers.length := by
        have hin : (i, d) ∈ sortByDist (raycastInstances hit papers.length) := by
          rw [hmatch]
          exact List.mem_cons_self _ _
        exact (mem_sortByDist _ _).mp hin
      obtain ⟨hi, hhit⟩ := (mem_raycastInstances hit papers.length i d).mp hmem
      refine ⟨i, d, hi, hhit, hp, ?_⟩
      intro j d' hj hjhit
      have hjmem : (j, d') ∈ raycastInstances hit papers.length :=
        (mem_raycastInstances hit papers.length j d').mpr ⟨hj, hjhit⟩
      exact sortByDist_head_le _ _ _ hmatch (j, d') hjmem

/-- Witness for C5 at the sample hit function and a one-node list. -/
theorem pick_resolves_nearest_witness :
    ((∀ i, i < [paperW].length → hitW i = none) → handlePointerDown hitW [paperW] = none)
    ∧ ([paperW] = ([] : List Paper) → handlePointerDown hitW [paperW] = none)
    ∧ ∀ p, handlePointerDown hitW [paperW] = some p →
        ∃ i d, i < [paperW].length ∧ hitW i = some d ∧ [paperW].get? i = some p
          ∧ ∀ j d', j < [paperW].length → hitW j = some d' → d ≤ d' :=
  pick_resolves_nearest hitW [paperW]

/-- Claim C10: whenever the selection callback fires from a pick, the
resolved instance index is strictly below the papers array length (the
instance batch holds exactly `papers.length` slots, and the raycaster only
reports slots of the batch), so `papers[id]` is a defined element and that
element is the callback argument — never `undefined`. -/
theorem pick_index_within_papers (hit : ℕ → Option ℚ) (papers : List Paper)
    (i : ℕ) (d : ℚ) (rest : List (ℕ × ℚ))
    (h : intersectObject hit papers.length = (i, d) :: rest) :
    i < papers.length
    ∧ ∃ p, papers.get? i = some p ∧ handlePointerDown hit papers = some p := by
  have hmem : (i, d) ∈ raycastInstances hit papers.length := by
    have hin : (i, d) ∈ sortByDist (raycastInstances hit papers.length) := by
      unfold intersectObject at h
      rw [h]
      exact List.mem_cons_self _ _
    exact (mem_sortByDist _ _).mp hin
  obtain ⟨hi, _⟩ := (mem_raycastInstances hit papers.length i d).mp hmem
  refine ⟨hi, ?_⟩
  rcases hq : papers.get? i with _ | p
  · exact absurd (List.get?_eq_none.mp hq) (not_le.mpr hi)
  · refine ⟨p, rfl, ?_⟩
    unfold handlePointerDown
    rw [h]
    exact hq

/-- Witness for C10: the sample hit function intersects slot 0 of a
one-node batch at distance 1. -/
theorem pick_index_within_papers_witness :
    0 < [paperW].length
    ∧ ∃ p, [paperW].get? 0 = some p ∧ handlePointerDown hitW [paperW] = some p :=
  pick_index_within_papers hitW [paperW] 0 1 [] (by rfl)

end GalaxAI
